import Mathlib

/-!
# go-torfluxdb: a Tor onion service in front of an InfluxDB instance

Shallow embedding of `proxy/proxy.go` (`New`, `Close`, `URL`, `Serve`, `ServeHTTP`) and of
the key handling of `cmd/torfluxproxy/main.go`.

Conventions of the embedding:

* a Go `string` used as text is a Lean `String`; a Go `[]byte` (and the bytes on a stream)
  is a `List Nat` of byte values, `goBytes` being the conversion `[]byte(s)`;
* a Go pointer is an `Option` (`none` is `nil`); a nil dereference is the outcome
  `Run.panicked`;
* calls that leave the package (`tor.Start`, `Tor.Listen`, `Close` of either handle,
  `http.Serve`, `RoundTrip`, `log.Printf`) are recorded, in program order, in a trace of
  `Event`s; what those calls answer is supplied by an `Env`;
* the library code a claim turns on is embedded as of the Go release of the source
  (2018): `checkWriteHeaderCode`, `bodyAllowedForStatus`, `http.Error`, `hex.Decode`, and
  the clearing of `OnionService.ID` by the `Close` of `bine`.
-/

namespace Torflux

/-! ## Go values -/

/-- A non-nil Go `error`, carrying the text its `Error()` method returns. -/
structure GoError where
  text : String
deriving DecidableEq, Repr

/-- Method `Error()` of the `error` interface. -/
def GoError.Error (e : GoError) : String := e.text

/-- The conversion `[]byte(s)`: the UTF-8 bytes of a string. -/
def goBytes (s : String) : List Nat :=
  (s.data.flatMap String.utf8EncodeChar).map UInt8.toNat

/-- Type `http.Header`, a map from header key to its list of values. -/
abbrev Header := AList (fun _ : String => List String)

/-- Type `url.URL` (the fields of the parsed destination). -/
structure URL where
  Scheme : String
  Host : String
  Path : String
  RawPath : String
  ForceQuery : Bool
  RawQuery : String
  Fragment : String
deriving DecidableEq

/-- An `io.ReadCloser`: the chunks successive `Read` calls deliver, ended by `io.EOF`
(`failure = none`) or by a read error. -/
structure Body where
  chunks : List (List Nat)
  failure : Option GoError
deriving DecidableEq

/-- All bytes the stream delivers before it ends. -/
def Body.bytes (b : Body) : List Nat := b.chunks.flatten

/-- Type `http.Request` (the fields a server request carries). -/
structure Request where
  Method : String
  URL : URL
  Proto : String
  Header : Header
  Body : Body
  ContentLength : Int
  TransferEncoding : List String
  Close : Bool
  Host : String
  RemoteAddr : String
  RequestURI : String
deriving DecidableEq

/-- Type `http.Response` (the fields `ServeHTTP` reads). -/
structure Response where
  Status : String
  StatusCode : Int
  Header : Header
  Body : Body
deriving DecidableEq

/-- A `context.Context`; `deadline = none` is a context that never expires. -/
structure Context where
  deadline : Option Int
deriving DecidableEq, Repr

/-- An ed25519 private key is a byte slice. -/
abbrev PrivateKey := List Nat

/-- Type `tor.StartConf` (the field `New` sets). -/
structure StartConf where
  ProcessCreator : String
deriving DecidableEq, Repr

/-- Type `tor.ListenConf` (the fields `New` sets). -/
structure ListenConf where
  RemotePorts : List Int
  Version3 : Bool
  Key : PrivateKey
deriving DecidableEq, Repr

/-- A started `tor.Tor` gateway. -/
structure Tor where
  pid : Nat
deriving DecidableEq, Repr

/-- A bound `tor.OnionService` listener. -/
structure OnionService where
  ID : String
deriving DecidableEq, Repr

/-- Type `proxy.Proxy`: two pointers and the backend address. -/
structure Proxy where
  gateway : Option Tor
  service : Option OnionService
  backend : String
deriving DecidableEq, Repr

/-! ## The outside world -/

/-- Calls leaving the package, as they appear in program order. -/
inductive Event where
  | torStart (ctx : Option Context) (conf : StartConf)
  | torListen (gateway : Tor) (ctx : Option Context) (conf : ListenConf)
  | gatewayClose (gateway : Tor)
  | serviceClose (service : OnionService)
  | httpServe (listener : OnionService)
  | roundTrip (rr : Request)
  | logPrintf (line : String)
  | bodyClose (body : Body)
  | generateKey
deriving DecidableEq

/-- What the collaborators answer. `httpServe` has no nil answer: `http.Serve` always
returns a non-nil error. `roundTrip` answers a response or an error, never both. -/
structure Env where
  torStart : Option Context → StartConf → Except GoError Tor
  torListen : Tor → Option Context → ListenConf → Except GoError OnionService
  httpServe : OnionService → GoError
  roundTrip : Request → Except GoError Response

/-- Outcome of running a function: it returns a value, or it panics; in both cases the
calls it made so far are kept. -/
inductive Run (α : Type) where
  | returned (value : α) (trace : List Event)
  | panicked (trace : List Event)

/-- The calls made during a run. -/
def Run.trace {α : Type} : Run α → List Event
  | .returned _ t => t
  | .panicked t => t

/-! ## The response writer -/

/-- The `http.ResponseWriter` the server of `net/http` hands to a handler, as the handler
sees it: the live header map `Header()` returns, whether the status line went out, the
status and the header map as they went out, and the body bytes accepted. The connection
behind it takes whatever is accepted. -/
structure ResponseWriter where
  header : Header
  wroteHeader : Bool
  status : Int
  sent : Header
  body : List Nat
deriving DecidableEq

/-- Function `bodyAllowedForStatus` of `net/http`: no body with 1xx, 204 and 304. -/
def bodyAllowedForStatus (status : Int) : Bool :=
  if 100 ≤ status ∧ status ≤ 199 then false
  else if status = 204 then false
  else if status = 304 then false
  else true

/-- Method `WriteHeader`: a call after the status went out is ignored; otherwise
`checkWriteHeaderCode` panics (`none`) on a code below 100 or above 999, and a code in
range is sent with the headers set so far. -/
def ResponseWriter.WriteHeader (w : ResponseWriter) (code : Int) : Option ResponseWriter :=
  if w.wroteHeader then some w
  else if code < 100 ∨ code > 999 then none
  else some { w with wroteHeader := true, status := code, sent := w.header }

/-- Method `Write`: sends status 200 first if no status went out yet (200 is in range,
so this does not panic); writing nothing succeeds; a body the status does not allow is
refused with `ErrBodyNotAllowed`; otherwise the bytes are accepted. -/
def ResponseWriter.Write (w : ResponseWriter) (data : List Nat) :
    ResponseWriter × Option GoError :=
  let w1 := (w.WriteHeader 200).getD w
  if data = [] then (w1, none)
  else if bodyAllowedForStatus w1.status = false then
    (w1, some { text := "http: request method or response status code does not allow body" })
  else ({ w1 with body := w1.body ++ data }, none)

/-- Function `http.Error`: sets the two plain-text headers, writes the status, then
prints the message with `fmt.Fprintln`, that is followed by a line feed; `none` when
`WriteHeader` panics. -/
def httpError (w : ResponseWriter) (error : String) (code : Int) : Option ResponseWriter :=
  let hh := (w.header.insert "Content-Type" ["text/plain; charset=utf-8"]).insert
    "X-Content-Type-Options" ["nosniff"]
  let w1 := { w with header := hh }
  match w1.WriteHeader code with
  | none => none
  | some w2 => some (w2.Write (goBytes (error ++ "\n"))).1

/-- The loop of `io.Copy`: a read that delivers bytes is followed by a write of them,
and the copy stops at the first write that fails. -/
def copyChunks : List (List Nat) → ResponseWriter → ResponseWriter
  | [], w => w
  | chunk :: rest, w =>
    if chunk = [] then copyChunks rest w
    else
      match w.Write chunk with
      | (w1, none) => copyChunks rest w1
      | (w1, some _) => w1

/-- Function `io.Copy(w, body)`: the chunks read before the stream ends are written, up
to the first write that fails. -/
def ioCopy (w : ResponseWriter) (body : Body) : ResponseWriter :=
  copyChunks body.chunks w

/-! ## `proxy.go` -/

/-- The start configuration `New` uses. -/
def startConf : StartConf := { ProcessCreator := "libtor.Creator" }

/-- The listen configuration `New` uses. -/
def listenConf (key : PrivateKey) : ListenConf :=
  { RemotePorts := [8086], Version3 := true, Key := key }

/-- Function `New`: start tor with a nil context, then listen with the caller context;
a failed listen closes the gateway. Returns the Go pair `(*Proxy, error)`. -/
def New (env : Env) (ctx : Option Context) (key : PrivateKey) (backend : String) :
    Run (Option Proxy × Option GoError) :=
  match env.torStart none startConf with
  | .error err => .returned (none, some err) [.torStart none startConf]
  | .ok gateway =>
    match env.torListen gateway ctx (listenConf key) with
    | .error err =>
      .returned (none, some err)
        [.torStart none startConf, .torListen gateway ctx (listenConf key),
         .gatewayClose gateway]
    | .ok service =>
      .returned (some { gateway := some gateway, service := some service, backend := backend },
          none)
        [.torStart none startConf, .torListen gateway ctx (listenConf key)]

/-- Method `Proxy.Close`: `p.service.Close()` then `p.gateway.Close()`, no nil check;
the two results are dropped and nil is returned. Reading a field of a nil `*Proxy`
panics; so does `Close` of a nil handle, whose body in `bine` dereferences its receiver.
`Close` of a handle that is not nil is a plain call, closed before or not. -/
def Proxy.Close (p : Option Proxy) : Run (Option GoError) :=
  match p with
  | none => .panicked []
  | some q =>
    match q.service with
    | none => .panicked []
    | some service =>
      match q.gateway with
      | none => .panicked [.serviceClose service]
      | some gateway => .returned none [.serviceClose service, .gatewayClose gateway]

/-- Method `Proxy.URL`. -/
def Proxy.URL (p : Option Proxy) : Option String :=
  match p with
  | none => none
  | some q =>
    match q.service with
    | none => none
    | some service => some ("http://" ++ service.ID ++ ".onion:8086")

/-- A deferred call of `Serve`, its receiver evaluated when the `defer` ran. -/
inductive Deferred where
  | gatewayClose (gateway : Option Tor)
  | serviceClose (service : Option OnionService)
deriving DecidableEq

/-- Runs one deferred call: `none` when it panics on a nil receiver. -/
def Deferred.run : Deferred → Option Event
  | .gatewayClose (some gateway) => some (.gatewayClose gateway)
  | .gatewayClose none => none
  | .serviceClose (some service) => some (.serviceClose service)
  | .serviceClose none => none

/-- Runs the deferred calls, the head of the stack (the last one deferred) first.
Returns whether the function is panicking when they are done, and the calls made. -/
def runDeferred : List Deferred → Bool → Bool × List Event
  | [], panicking => (panicking, [])
  | d :: rest, panicking =>
    match d.run with
    | some ev =>
      let out := runDeferred rest panicking
      (out.1, ev :: out.2)
    | none => runDeferred rest true

/-- Method `Proxy.Serve`: defers the gateway close, then the service close, then runs
`http.Serve` and returns its error once the deferred calls have run. -/
def Proxy.Serve (env : Env) (p : Option Proxy) : Run (Option GoError) :=
  match p with
  | none => .panicked []
  | some q =>
    let stack := [Deferred.serviceClose q.service, Deferred.gatewayClose q.gateway]
    match q.service with
    | none =>
      .panicked (runDeferred stack true).2
    | some listener =>
      let err := env.httpServe listener
      let out := runDeferred stack false
      if out.1 then .panicked (Event.httpServe listener :: out.2)
      else .returned (some err) (Event.httpServe listener :: out.2)

/-- The outbound request `ServeHTTP` builds from the inbound one: a fresh
`http.Request` with six fields set and every other field at its zero value. -/
def outbound (backend : String) (r : Request) : Request :=
  { Method := r.Method
    URL := { r.URL with Scheme := "http", Host := backend }
    Proto := ""
    Header := r.Header
    Body := r.Body
    ContentLength := r.ContentLength
    TransferEncoding := []
    Close := r.Close
    Host := ""
    RemoteAddr := ""
    RequestURI := "" }

/-- The header loop of `ServeHTTP`: `hh[key] = value` for every entry of the source. -/
def copyHeader (hh src : Header) : Header :=
  src.entries.foldl (fun acc kv => acc.insert kv.1 kv.2) hh

/-- Method `Proxy.ServeHTTP`. Returns the writer and the inbound request as the handler
leaves them (the inbound URL is rewritten in place). A panic of `WriteHeader` leaves the
handler after the deferred `res.Body.Close()`. -/
def Proxy.ServeHTTP (env : Env) (p : Option Proxy) (w : ResponseWriter) (r : Request) :
    Run (ResponseWriter × Request) :=
  match p with
  | none => .panicked []
  | some q =>
    let r1 := { r with URL := { r.URL with Scheme := "http", Host := q.backend } }
    let rr := outbound q.backend r
    match env.roundTrip rr with
    | .error err =>
      match httpError w err.Error 500 with
      | none =>
        .panicked
          [.roundTrip rr, .logPrintf ("Failed to forward metrics request: " ++ err.Error)]
      | some w1 =>
        .returned (w1, r1)
          [.roundTrip rr, .logPrintf ("Failed to forward metrics request: " ++ err.Error)]
    | .ok res =>
      let w1 := { w with header := copyHeader w.header res.Header }
      match w1.WriteHeader res.StatusCode with
      | none =>
        .panicked
          [.roundTrip rr,
           .logPrintf ("Metrics request forwarded successfully: " ++ res.Status),
           .bodyClose res.Body]
      | some w2 =>
        let w3 := ioCopy w2 res.Body
        .returned (w3, r1)
          [.roundTrip rr,
           .logPrintf ("Metrics request forwarded successfully: " ++ res.Status),
           .bodyClose res.Body]

/-! ## The handles over the life of a Proxy -/

/-- The Proxy as one recorded call leaves it. `proxy.go` assigns no field of a Proxy
after `New`, so only the handles can change, and of the calls recorded only
`OnionService.Close` writes to one: in `bine` it deletes the onion and clears the `ID` of
the service. -/
def Proxy.afterCall (p : Proxy) : Event → Proxy
  | .serviceClose s =>
    if p.service = some s then { p with service := some { s with ID := "" } } else p
  | _ => p

/-- The Proxy as a sequence of recorded calls leaves it. -/
def Proxy.afterCalls (p : Proxy) (t : List Event) : Proxy := t.foldl Proxy.afterCall p

/-- The Proxy after the accept loop served the given requests, one handler call each. -/
def Proxy.afterRequests (env : Env) (p : Proxy) (reqs : List (ResponseWriter × Request)) :
    Proxy :=
  reqs.foldl (fun q wr => q.afterCalls (Proxy.ServeHTTP env (some q) wr.1 wr.2).trace) p

/-! ## `main.go`: the onion key -/

/-- Function `fromHexChar` of `encoding/hex`: the value of a hex digit byte. -/
def fromHexChar (c : Nat) : Option Nat :=
  if 48 ≤ c ∧ c ≤ 57 then some (c - 48)
  else if 97 ≤ c ∧ c ≤ 102 then some (c - 97 + 10)
  else if 65 ≤ c ∧ c ≤ 70 then some (c - 65 + 10)
  else none

/-- The two errors of `encoding/hex`. -/
inductive HexError where
  | InvalidByteError (b : Nat)
  | ErrLength
deriving DecidableEq, Repr

/-- Function `hex.Decode`, two source bytes a step: the bytes decoded so far and the
error, if any. An odd byte left over is reported as invalid if it is no hex digit, as
`ErrLength` otherwise. -/
def Decode : List Nat → List Nat × Option HexError
  | [] => ([], none)
  | [c] =>
    match fromHexChar c with
    | none => ([], some (.InvalidByteError c))
    | some _ => ([], some .ErrLength)
  | p :: q :: rest =>
    match fromHexChar p with
    | none => ([], some (.InvalidByteError p))
    | some a =>
      match fromHexChar q with
      | none => ([], some (.InvalidByteError q))
      | some b =>
        let out := Decode rest
        ((((a <<< 4) ||| b) % 256) :: out.1, out.2)

/-- Function `hex.DecodeString`. -/
def DecodeString (s : String) : List Nat × Option HexError := Decode (goBytes s)

/-- Constant `ed25519.PrivateKeySize` of `bine/torutil/ed25519`. -/
def PrivateKeySize : Nat := 64

/-- What `main` reads from its process: the `TORFLUXDB_ONIONKEY` variable (empty when
unset), the three flags, the clock, and what `ed25519.GenerateKey(rand.Reader)` yields. -/
structure Process where
  onionkey : String
  printkey : Bool
  timeout : Int
  influxdb : String
  now : Int
  generateKey : Except GoError PrivateKey

/-- Lines 37-60 of `main`: the configured key, or a generated one; `Except.error code`
is `os.Exit(code)`. -/
def retrieveKey (ps : Process) : Except Int PrivateKey × List Event :=
  if ps.onionkey = "" then
    match ps.generateKey with
    | .error _ => (.error (-1), [.generateKey])
    | .ok newkey => (.ok newkey, [.generateKey])
  else
    match DecodeString ps.onionkey with
    | (_, some _) => (.error (-1), [])
    | (blob, none) =>
      if blob.length ≠ PrivateKeySize then (.error (-1), [])
      else (.ok blob, [])

/-- A run that follows the calls `earlier`. -/
def Run.after {α : Type} (earlier : List Event) : Run α → Run α
  | .returned a t => .returned a (earlier ++ t)
  | .panicked t => .panicked (earlier ++ t)

/-- Lines 69-86 of `main` (log output left out): bound the bootstrap by the timeout flag,
create the proxy, serve, and run the deferred `proxy.Close()` when `main` returns, on
the handles as `Serve` left them; a failed `New` is `os.Exit(-1)`, which runs no deferred
call. -/
def runProxy (ps : Process) (env : Env) (key : PrivateKey) : Run Int :=
  let ctx : Option Context := some { deadline := some (ps.now + ps.timeout) }
  match New env ctx key ps.influxdb with
  | .panicked t1 => .panicked t1
  | .returned (_, some _) t1 => .returned (-1) t1
  | .returned (proxy, none) t1 =>
    match Proxy.Serve env proxy with
    | .panicked t2 =>
      .panicked (t1 ++ t2 ++ (Proxy.Close (proxy.map fun q => q.afterCalls t2)).trace)
    | .returned _ t2 =>
      match Proxy.Close (proxy.map fun q => q.afterCalls t2) with
      | .panicked t3 => .panicked (t1 ++ t2 ++ t3)
      | .returned _ t3 => .returned 0 (t1 ++ t2 ++ t3)

/-- Function `main`: the exit status and the calls made. -/
def main (ps : Process) (env : Env) : Run Int :=
  match retrieveKey ps with
  | (.error code, t) => .returned code t
  | (.ok key, t) => (runProxy ps env key).after t

/-- Two calls of `Close` in a row on the same proxy: `Close` assigns no field, so the
second call goes to the same handles, as the first call left them. -/
def closeTwice (p : Option Proxy) : Run (Option GoError) :=
  match Proxy.Close p with
  | .panicked t => .panicked t
  | .returned _ t => (Proxy.Close (p.map fun q => q.afterCalls t)).after t

/-! ## Words of the specification -/

/-- A byte that is a hexadecimal digit, in either case. -/
def isHexDigit (c : Nat) : Bool :=
  (48 ≤ c && c ≤ 57) || (97 ≤ c && c ≤ 102) || (65 ≤ c && c ≤ 70)

/-- Valid hexadecimal text: an even number of bytes, each a hexadecimal digit. -/
def validHex (bs : List Nat) : Prop := bs.length % 2 = 0 ∧ ∀ c ∈ bs, isHexDigit c = true

/-- The value a run returned, if it returned. -/
def Run.value? {α : Type} : Run α → Option α
  | .returned a _ => some a
  | .panicked _ => none

/-! ## Sample inputs -/

/-- A writer nothing was written to yet. -/
def freshWriter : ResponseWriter :=
  { header := ∅, wroteHeader := false, status := 0, sent := ∅, body := [] }

/-- The request `GET /ping` as the server hands it to the handler. -/
def pingRequest : Request :=
  { Method := "GET"
    URL := { Scheme := "", Host := "", Path := "/ping", RawPath := "", ForceQuery := false,
             RawQuery := "", Fragment := "" }
    Proto := "HTTP/1.1"
    Header := (∅ : Header).insert "User-Agent" ["influx"]
    Body := { chunks := [], failure := none }
    ContentLength := 0
    TransferEncoding := []
    Close := false
    Host := "abc.onion:8086"
    RemoteAddr := "127.0.0.1:4242"
    RequestURI := "/ping" }

/-- A proxy as `New` builds it. -/
def sampleProxy : Proxy :=
  { gateway := some { pid := 1 }, service := some { ID := "abc" }, backend := "localhost:8086" }

/-- The reply of InfluxDB to `/ping`: 204, one header, no body. -/
def pingResponse : Response :=
  { Status := "204 No Content"
    StatusCode := 204
    Header := (∅ : Header).insert "X-Influxdb-Version" ["1.6.0"]
    Body := { chunks := [], failure := none } }

/-- A world in which tor starts and listens and the backend answers `/ping`. -/
def pingEnv : Env :=
  { torStart := fun _ _ => .ok { pid := 1 }
    torListen := fun _ _ _ => .ok { ID := "abc" }
    httpServe := fun _ => { text := "closed" }
    roundTrip := fun _ => .ok pingResponse }

/-- A reply whose status line reads `HTTP/1.1 099 Odd`: the transport hands it on with
status code 99. -/
def oddStatusResponse : Response :=
  { Status := "099 Odd"
    StatusCode := 99
    Header := ∅
    Body := { chunks := [[120]], failure := none } }

/-- A world in which the backend answers with status code 99. -/
def oddStatusEnv : Env :=
  { torStart := fun _ _ => .ok { pid := 1 }
    torListen := fun _ _ _ => .ok { ID := "abc" }
    httpServe := fun _ => { text := "closed" }
    roundTrip := fun _ => .ok oddStatusResponse }

/-- A reply of status 304 whose body stream still delivers one byte. -/
def notModifiedResponse : Response :=
  { Status := "304 Not Modified"
    StatusCode := 304
    Header := ∅
    Body := { chunks := [[120]], failure := none } }

/-- A world in which the backend answers with that 304. -/
def notModifiedEnv : Env :=
  { torStart := fun _ _ => .ok { pid := 1 }
    torListen := fun _ _ _ => .ok { ID := "abc" }
    httpServe := fun _ => { text := "closed" }
    roundTrip := fun _ => .ok notModifiedResponse }

/-- A world in which the backend cannot be reached. -/
def unreachableEnv : Env :=
  { torStart := fun _ _ => .ok { pid := 1 }
    torListen := fun _ _ _ => .ok { ID := "abc" }
    httpServe := fun _ => { text := "closed" }
    roundTrip := fun _ => .error { text := "EOF" } }

/-- Whether a context handed to a call is done at time `now`; a nil context never is. -/
def contextDone (now : Int) : Option Context → Bool
  | some { deadline := some d } => decide (d ≤ now)
  | _ => false

/-- A world at time 0 in which both tor calls honour the context they are handed: each
fails with the context error when that context is done, and succeeds otherwise. -/
def deadlineEnv : Env :=
  { torStart := fun ctx _ =>
      if contextDone 0 ctx then .error { text := "context deadline exceeded" }
      else .ok { pid := 1 }
    torListen := fun _ ctx _ =>
      if contextDone 0 ctx then .error { text := "context deadline exceeded" }
      else .ok { ID := "abc" }
    httpServe := fun _ => { text := "closed" }
    roundTrip := fun _ => .ok pingResponse }

/-- A caller context whose deadline has passed at time 0. -/
def expiredContext : Option Context := some { deadline := some 0 }

/-- A 128-digit hexadecimal onion key. -/
def sampleHexKey : String := String.mk (List.replicate 128 'a')

/-- A process with the sample key configured and the default flags. -/
def sampleProcess : Process :=
  { onionkey := sampleHexKey, printkey := false, timeout := 180, influxdb := "localhost:8086",
    now := 0, generateKey := .error { text := "unused" } }

/-! ## Lemmas on headers and on the writer -/

theorem goBytes_append (s t : String) : goBytes (s ++ t) = goBytes s ++ goBytes t := by
  simp [goBytes, String.data_append, List.flatMap_append]

theorem goBytes_newline : goBytes "\n" = [10] := by decide

theorem foldl_insert_lookup (l : List (Sigma fun _ : String => List String))
    (hnd : l.NodupKeys) (hh : Header) (k : String) :
    (l.foldl (fun acc kv => acc.insert kv.1 kv.2) hh).lookup k
      = (l.dlookup k).elim (hh.lookup k) some := by
  induction l generalizing hh with
  | nil => simp
  | cons x t ih =>
    obtain ⟨a, b⟩ := x
    rw [List.nodupKeys_cons] at hnd
    rw [List.foldl_cons, ih hnd.2]
    by_cases hka : k = a
    · subst hka
      have hnone : t.dlookup k = none := List.dlookup_eq_none.mpr hnd.1
      simp [hnone, AList.lookup_insert]
    · have hcons : List.dlookup k (⟨a, b⟩ :: t) = List.dlookup k t :=
        List.dlookup_cons_ne t ⟨a, b⟩ hka
      rw [hcons, AList.lookup_insert_ne hka]

theorem copyHeader_lookup (hh src : Header) (k : String) :
    (copyHeader hh src).lookup k = (src.lookup k).elim (hh.lookup k) some :=
  foldl_insert_lookup src.entries src.nodupKeys hh k

theorem writeHeader_of_fresh (w : ResponseWriter) (code : Int) (hfresh : w.wroteHeader = false)
    (hlo : 100 ≤ code) (hhi : code ≤ 999) :
    w.WriteHeader code
      = some { w with wroteHeader := true, status := code, sent := w.header } := by
  have h : ¬ (code < 100 ∨ code > 999) := by omega
  simp [ResponseWriter.WriteHeader, hfresh, h]

theorem writeHeader_of_odd (w : ResponseWriter) (code : Int) (hfresh : w.wroteHeader = false)
    (hodd : code < 100 ∨ code > 999) : w.WriteHeader code = none := by
  simp [ResponseWriter.WriteHeader, hfresh, hodd]

theorem write_of_allowed (w : ResponseWriter) (data : List Nat) (h : w.wroteHeader = true)
    (hallowed : bodyAllowedForStatus w.status = true) :
    w.Write data = ({ w with body := w.body ++ data }, none) := by
  obtain ⟨hdr, wrote, st, snt, bd⟩ := w
  simp only at h hallowed
  subst h
  by_cases hd : data = []
  · subst hd
    simp [ResponseWriter.Write, ResponseWriter.WriteHeader]
  · simp [ResponseWriter.Write, ResponseWriter.WriteHeader, hd, hallowed]

theorem write_of_refused (w : ResponseWriter) (data : List Nat) (h : w.wroteHeader = true)
    (hrefused : bodyAllowedForStatus w.status = false) (hd : data ≠ []) :
    (w.Write data).1 = w ∧ (w.Write data).2 ≠ none := by
  simp [ResponseWriter.Write, ResponseWriter.WriteHeader, h, hd, hrefused]

theorem copyChunks_of_allowed (chunks : List (List Nat)) (w : ResponseWriter)
    (h : w.wroteHeader = true) (hallowed : bodyAllowedForStatus w.status = true) :
    copyChunks chunks w = { w with body := w.body ++ chunks.flatten } := by
  induction chunks generalizing w with
  | nil => simp [copyChunks]
  | cons c t ih =>
    by_cases hc : c = []
    · subst hc
      simp [copyChunks, ih w h hallowed]
    · simp only [copyChunks, hc, if_false, write_of_allowed w c h hallowed]
      rw [ih { w with body := w.body ++ c } h hallowed]
      simp [List.append_assoc]

theorem copyChunks_of_refused (chunks : List (List Nat)) (w : ResponseWriter)
    (h : w.wroteHeader = true) (hrefused : bodyAllowedForStatus w.status = false) :
    copyChunks chunks w = w := by
  induction chunks with
  | nil => simp [copyChunks]
  | cons c t ih =>
    by_cases hc : c = []
    · subst hc
      simp [copyChunks, ih]
    · have hw := write_of_refused w c h hrefused hc
      simp only [copyChunks, hc, if_false]
      rcases hwc : w.Write c with ⟨w1, err⟩
      rw [hwc] at hw
      cases err with
      | none => exact absurd rfl hw.2
      | some e => exact hw.1

theorem copyChunks_of_empty (chunks : List (List Nat)) (w : ResponseWriter)
    (hempty : chunks.flatten = []) : copyChunks chunks w = w := by
  induction chunks with
  | nil => simp [copyChunks]
  | cons c t ih =>
    simp only [List.flatten_cons, List.append_eq_nil] at hempty
    simp [copyChunks, hempty.1, ih hempty.2]

theorem ioCopy_of_allowed (w : ResponseWriter) (b : Body) (h : w.wroteHeader = true)
    (hallowed : bodyAllowedForStatus w.status = true) :
    ioCopy w b = { w with body := w.body ++ b.bytes } :=
  copyChunks_of_allowed b.chunks w h hallowed

theorem ioCopy_of_refused (w : ResponseWriter) (b : Body) (h : w.wroteHeader = true)
    (hrefused : bodyAllowedForStatus w.status = false) : ioCopy w b = w :=
  copyChunks_of_refused b.chunks w h hrefused

theorem ioCopy_of_empty (w : ResponseWriter) (b : Body) (hempty : b.bytes = []) :
    ioCopy w b = w :=
  copyChunks_of_empty b.chunks w hempty

theorem ioCopy_fields (w : ResponseWriter) (b : Body) (h : w.wroteHeader = true) :
    (ioCopy w b).header = w.header ∧ (ioCopy w b).sent = w.sent ∧
      (ioCopy w b).status = w.status := by
  cases hallowed : bodyAllowedForStatus w.status with
  | true => rw [ioCopy_of_allowed w b h hallowed]; exact ⟨rfl, rfl, rfl⟩
  | false => rw [ioCopy_of_refused w b h hallowed]; exact ⟨rfl, rfl, rfl⟩

/-! ## The request forwarder -/

theorem httpError_of_fresh (w : ResponseWriter) (text : String)
    (hfresh : w.wroteHeader = false) :
    ∃ w1, httpError w text 500 = some w1 ∧ w1.status = 500 ∧
      w1.body = w.body ++ goBytes text ++ [10] := by
  simp only [httpError]
  rw [writeHeader_of_fresh _ 500 (by exact hfresh) (by decide) (by decide)]
  refine ⟨_, rfl, ?_, ?_⟩
  · simp [ResponseWriter.Write, ResponseWriter.WriteHeader, goBytes_append, goBytes_newline,
      bodyAllowedForStatus]
  · simp [ResponseWriter.Write, ResponseWriter.WriteHeader, goBytes_append, goBytes_newline,
      bodyAllowedForStatus, List.append_assoc]

/-- C1: the request `ServeHTTP` hands to the backend transport is the first call it makes
and the only round trip; its URL is the inbound URL with scheme "http" and host
`p.backend` and nothing else changed (so path and query are kept), and its method, header
map, body stream and declared content length are those the inbound request had on entry. -/
theorem serveHTTP_outbound_request (env : Env) (p : Proxy) (w : ResponseWriter) (r : Request) :
    ∃ rr tail, (Proxy.ServeHTTP env (some p) w r).trace = Event.roundTrip rr :: tail ∧
      (∀ x, Event.roundTrip x ∉ tail) ∧
      rr.URL.Scheme = "http" ∧ rr.URL.Host = p.backend ∧
      rr.URL = { r.URL with Scheme := "http", Host := p.backend } ∧
      rr.Method = r.Method ∧ rr.URL.Path = r.URL.Path ∧ rr.URL.RawQuery = r.URL.RawQuery ∧
      rr.Header = r.Header ∧ rr.Body = r.Body ∧ rr.ContentLength = r.ContentLength := by
  cases hrt : env.roundTrip (outbound p.backend r) with
  | error err =>
    cases hw : httpError w err.Error 500 with
    | none =>
      simp only [Proxy.ServeHTTP, hrt, hw, Run.trace]
      refine ⟨outbound p.backend r, _, rfl, ?_, rfl, rfl, rfl, rfl, rfl, rfl, rfl, rfl, rfl⟩
      intro x hx
      simp at hx
    | some w1 =>
      simp only [Proxy.ServeHTTP, hrt, hw, Run.trace]
      refine ⟨outbound p.backend r, _, rfl, ?_, rfl, rfl, rfl, rfl, rfl, rfl, rfl, rfl, rfl⟩
      intro x hx
      simp at hx
  | ok res =>
    cases hw : ResponseWriter.WriteHeader
        { w with header := copyHeader w.header res.Header } res.StatusCode with
    | none =>
      simp only [Proxy.ServeHTTP, hrt, hw, Run.trace]
      refine ⟨outbound p.backend r, _, rfl, ?_, rfl, rfl, rfl, rfl, rfl, rfl, rfl, rfl, rfl⟩
      intro x hx
      simp at hx
    | some w2 =>
      simp only [Proxy.ServeHTTP, hrt, hw, Run.trace]
      refine ⟨outbound p.backend r, _, rfl, ?_, rfl, rfl, rfl, rfl, rfl, rfl, rfl, rfl, rfl⟩
      intro x hx
      simp at hx

/-- C2, as stated, fails. A backend reply with status code 99 is a successful round
trip, yet `ServeHTTP` panics in `WriteHeader` and returns nothing to the caller. And a
reply of status 304 whose body stream delivers a byte leaves the caller with status 304
and an empty body, since the writer refuses a body under that status. -/
theorem serveHTTP_success_counterexample :
    oddStatusEnv.roundTrip (outbound sampleProxy.backend pingRequest)
        = .ok oddStatusResponse ∧
      (Proxy.ServeHTTP oddStatusEnv (some sampleProxy) freshWriter pingRequest).value?.isNone
        = true ∧
      notModifiedEnv.roundTrip (outbound sampleProxy.backend pingRequest)
        = .ok notModifiedResponse ∧
      ((Proxy.ServeHTTP notModifiedEnv (some sampleProxy) freshWriter pingRequest).value?.map
        fun out => (out.1.status, out.1.body)) = some (304, []) ∧
      notModifiedResponse.Body.bytes = [120] :=
  ⟨rfl, by decide, rfl, by decide, by decide⟩

/-- C2, amended: when the round trip succeeds with `res`, the status code of `res` lies
in 100..999 and nothing was sent to the caller yet, `ServeHTTP` returns and leaves the
caller with: under every key of `res.Header` exactly the value list `res.Header` has
(whatever the writer held under that key before), both in the header map and in the
headers sent; under every other key what the writer held; status `res.StatusCode`, sent
before the body; and, when that status allows a body or `res.Body` is empty, the body
extended by all bytes of `res.Body` (under a status that allows none the body is left as
it was). A 204 with an empty body yields 204 with an empty body. -/
theorem serveHTTP_success (env : Env) (p : Proxy) (w : ResponseWriter) (r : Request)
    (res : Response) (hres : env.roundTrip (outbound p.backend r) = .ok res)
    (hfresh : w.wroteHeader = false)
    (hcode : 100 ≤ res.StatusCode ∧ res.StatusCode ≤ 999) :
    ∃ w1 r1 t, Proxy.ServeHTTP env (some p) w r = .returned (w1, r1) t ∧
      (∀ k v, res.Header.lookup k = some v →
        w1.sent.lookup k = some v ∧ w1.header.lookup k = some v) ∧
      (∀ k, res.Header.lookup k = none → w1.sent.lookup k = w.header.lookup k) ∧
      w1.status = res.StatusCode ∧
      (bodyAllowedForStatus res.StatusCode = true ∨ res.Body.bytes = [] →
        w1.body = w.body ++ res.Body.bytes) ∧
      (bodyAllowedForStatus res.StatusCode = false → w1.body = w.body) ∧
      (∃ wh : ResponseWriter, wh.wroteHeader = true ∧ wh.status = res.StatusCode ∧
        wh.body = w.body ∧ w1 = ioCopy wh res.Body) ∧
      (res.StatusCode = 204 → res.Body.bytes = [] → w.body = [] →
        w1.status = 204 ∧ w1.body = []) := by
  have hwh : ResponseWriter.WriteHeader
      { header := copyHeader w.header res.Header, wroteHeader := w.wroteHeader,
        status := w.status, sent := w.sent, body := w.body } res.StatusCode
      = some (ResponseWriter.mk (copyHeader w.header res.Header) true res.StatusCode
          (copyHeader w.header res.Header) w.body) :=
    writeHeader_of_fresh _ res.StatusCode hfresh hcode.1 hcode.2
  simp only [Proxy.ServeHTTP, hres, hwh]
  have hfields := ioCopy_fields (ResponseWriter.mk (copyHeader w.header res.Header) true
    res.StatusCode (copyHeader w.header res.Header) w.body) res.Body rfl
  have hbody : bodyAllowedForStatus res.StatusCode = true ∨ res.Body.bytes = [] →
      (ioCopy (ResponseWriter.mk (copyHeader w.header res.Header) true res.StatusCode
        (copyHeader w.header res.Header) w.body) res.Body).body = w.body ++ res.Body.bytes := by
    intro h
    rcases h with h | h
    · rw [ioCopy_of_allowed _ _ rfl h]
    · rw [ioCopy_of_empty _ _ h, h]
      simp
  refine ⟨_, _, _, rfl, ?_, ?_, hfields.2.2, hbody, ?_, ?_, ?_⟩
  · intro k v hk
    rw [hfields.1, hfields.2.1]
    simp [copyHeader_lookup, hk]
  · intro k hk
    rw [hfields.2.1]
    simp [copyHeader_lookup, hk]
  · intro h
    rw [ioCopy_of_refused _ _ rfl h]
  · exact ⟨ResponseWriter.mk (copyHeader w.header res.Header) true res.StatusCode
        (copyHeader w.header res.Header) w.body, rfl, rfl, rfl, rfl⟩
  · intro hc hbytes hb
    refine ⟨by rw [hfields.2.2]; exact hc, ?_⟩
    rw [hbody (Or.inr hbytes), hbytes, hb]
    rfl

/-- Witness of C2 amended: the `/ping` round trip of InfluxDB on a fresh writer. -/
theorem serveHTTP_success_witness :
    ∃ w1 r1 t, Proxy.ServeHTTP pingEnv (some sampleProxy) freshWriter pingRequest
        = .returned (w1, r1) t ∧
      (∀ k v, pingResponse.Header.lookup k = some v →
        w1.sent.lookup k = some v ∧ w1.header.lookup k = some v) ∧
      (∀ k, pingResponse.Header.lookup k = none →
        w1.sent.lookup k = freshWriter.header.lookup k) ∧
      w1.status = pingResponse.StatusCode ∧
      (bodyAllowedForStatus pingResponse.StatusCode = true ∨ pingResponse.Body.bytes = [] →
        w1.body = freshWriter.body ++ pingResponse.Body.bytes) ∧
      (bodyAllowedForStatus pingResponse.StatusCode = false → w1.body = freshWriter.body) ∧
      (∃ wh : ResponseWriter, wh.wroteHeader = true ∧ wh.status = pingResponse.StatusCode ∧
        wh.body = freshWriter.body ∧ w1 = ioCopy wh pingResponse.Body) ∧
      (pingResponse.StatusCode = 204 → pingResponse.Body.bytes = [] → freshWriter.body = [] →
        w1.status = 204 ∧ w1.body = []) :=
  serveHTTP_success pingEnv sampleProxy freshWriter pingRequest pingResponse rfl rfl
    (by decide)

/-- C3, as stated, fails: with the backend unreachable (error text "EOF") the body the
caller receives is the four bytes of "EOF" and a line feed, which is not the error text. -/
theorem serveHTTP_failure_body_counterexample :
    ((Proxy.ServeHTTP unreachableEnv (some sampleProxy) freshWriter pingRequest).value?.map
        fun out => out.1.body) = some [69, 79, 70, 10] ∧
      [69, 79, 70, 10] ≠ goBytes (GoError.Error { text := "EOF" }) := by
  decide

/-- C3, amended: when the round trip fails with error `e` and nothing was sent to the
caller yet, `ServeHTTP` returns after exactly one round trip (and one log line, no body
close); the caller gets status 500 and a body extended by the bytes of `e.Error()`
followed by a line feed, hence non-empty; the writer is what `http.Error` makes of it
from the error text alone, so no backend header or body reaches it. -/
theorem serveHTTP_failure (env : Env) (p : Proxy) (w : ResponseWriter) (r : Request)
    (e : GoError) (herr : env.roundTrip (outbound p.backend r) = .error e)
    (hfresh : w.wroteHeader = false) :
    ∃ w1 r1, Proxy.ServeHTTP env (some p) w r
        = .returned (w1, r1) [.roundTrip (outbound p.backend r),
            .logPrintf ("Failed to forward metrics request: " ++ e.Error)] ∧
      httpError w e.Error 500 = some w1 ∧
      w1.status = 500 ∧
      w1.body = w.body ++ goBytes e.Error ++ [10] ∧
      w1.body ≠ [] := by
  obtain ⟨w1, hw, hstatus, hbody⟩ := httpError_of_fresh w e.Error hfresh
  simp only [Proxy.ServeHTTP, herr, hw]
  refine ⟨_, _, rfl, rfl, hstatus, hbody, ?_⟩
  rw [hbody]
  simp

/-- Witness of C3 amended: the unreachable backend on a fresh writer. -/
theorem serveHTTP_failure_witness :
    ∃ w1 r1, Proxy.ServeHTTP unreachableEnv (some sampleProxy) freshWriter pingRequest
        = .returned (w1, r1) [.roundTrip (outbound sampleProxy.backend pingRequest),
            .logPrintf ("Failed to forward metrics request: " ++ GoError.Error { text := "EOF" })] ∧
      httpError freshWriter (GoError.Error { text := "EOF" }) 500 = some w1 ∧
      w1.status = 500 ∧
      w1.body = freshWriter.body ++ goBytes (GoError.Error { text := "EOF" }) ++ [10] ∧
      w1.body ≠ [] :=
  serveHTTP_failure unreachableEnv sampleProxy freshWriter pingRequest { text := "EOF" } rfl rfl

/-! ## Bootstrap -/

theorem new_of_start_error (env : Env) (ctx : Option Context) (key : PrivateKey)
    (backend : String) (e : GoError) (hstart : env.torStart none startConf = .error e) :
    New env ctx key backend = .returned (none, some e) [.torStart none startConf] := by
  simp only [New, hstart]

theorem new_of_listen_error (env : Env) (ctx : Option Context) (key : PrivateKey)
    (backend : String) (g : Tor) (e : GoError)
    (hstart : env.torStart none startConf = .ok g)
    (hlisten : env.torListen g ctx (listenConf key) = .error e) :
    New env ctx key backend = .returned (none, some e)
      [.torStart none startConf, .torListen g ctx (listenConf key), .gatewayClose g] := by
  simp only [New, hstart, hlisten]

theorem new_of_listen_ok (env : Env) (ctx : Option Context) (key : PrivateKey)
    (backend : String) (g : Tor) (s : OnionService)
    (hstart : env.torStart none startConf = .ok g)
    (hlisten : env.torListen g ctx (listenConf key) = .ok s) :
    New env ctx key backend
      = .returned (some { gateway := some g, service := some s, backend := backend }, none)
          [.torStart none startConf, .torListen g ctx (listenConf key)] := by
  simp only [New, hstart, hlisten]

theorem new_returns_proxy (env : Env) (ctx : Option Context) (key : PrivateKey)
    (backend : String) (p : Proxy) (err : Option GoError) (t0 : List Event)
    (hnew : New env ctx key backend = .returned (some p, err) t0) :
    ∃ g s, env.torStart none startConf = .ok g ∧
      env.torListen g ctx (listenConf key) = .ok s ∧
      p = { gateway := some g, service := some s, backend := backend } ∧ err = none ∧
      t0 = [.torStart none startConf, .torListen g ctx (listenConf key)] := by
  cases hstart : env.torStart none startConf with
  | error e =>
    rw [new_of_start_error env ctx key backend e hstart] at hnew
    cases hnew
  | ok g =>
    cases hlisten : env.torListen g ctx (listenConf key) with
    | error e =>
      rw [new_of_listen_error env ctx key backend g e hstart hlisten] at hnew
      cases hnew
    | ok sv =>
      rw [new_of_listen_ok env ctx key backend g sv hstart hlisten] at hnew
      cases hnew
      exact ⟨g, sv, rfl, hlisten, rfl, rfl, rfl⟩

/-- C4, as stated, fails: called with a context whose deadline has passed, in a world
where both tor calls honour the context they get, `New` never hands that context to the
gateway start; the start, given a nil context, succeeds, and only the listener bind
fails on the deadline (after which the gateway is closed). -/
theorem new_gateway_start_context_counterexample :
    Event.torStart expiredContext startConf
        ∉ (New deadlineEnv expiredContext [] "localhost:8086").trace ∧
      (New deadlineEnv expiredContext [] "localhost:8086").trace
        = [.torStart none startConf, .torListen { pid := 1 } expiredContext (listenConf []),
           .gatewayClose { pid := 1 }] := by
  decide

/-- C4, amended: only the listener bind is bounded by the caller-supplied deadline.
`New` first starts the gateway with a nil context, whatever the caller passed; every
listener bind it makes, and it makes one whenever the gateway started, gets exactly the
context of the caller. -/
theorem new_context_passing (env : Env) (ctx : Option Context) (key : PrivateKey)
    (backend : String) :
    (New env ctx key backend).trace.head? = some (.torStart none startConf) ∧
      (∀ c conf, Event.torStart c conf ∈ (New env ctx key backend).trace → c = none) ∧
      (∀ g c conf, Event.torListen g c conf ∈ (New env ctx key backend).trace → c = ctx) ∧
      (∀ g, env.torStart none startConf = .ok g →
        Event.torListen g ctx (listenConf key) ∈ (New env ctx key backend).trace) := by
  cases hstart : env.torStart none startConf with
  | error err =>
    rw [new_of_start_error env ctx key backend err hstart]
    simp [Run.trace]
  | ok gateway =>
    cases hlisten : env.torListen gateway ctx (listenConf key) with
    | error err =>
      rw [new_of_listen_error env ctx key backend gateway err hstart hlisten]
      simp only [Run.trace]
      refine ⟨rfl, ?_, ?_, ?_⟩
      · intro c conf h
        simp at h
        exact h.1
      · intro g c conf h
        simp at h
        exact h.2.1
      · intro g hg
        cases hg
        simp
    | ok service =>
      rw [new_of_listen_ok env ctx key backend gateway service hstart hlisten]
      simp only [Run.trace]
      refine ⟨rfl, ?_, ?_, ?_⟩
      · intro c conf h
        simp at h
        exact h.1
      · intro g c conf h
        simp at h
        exact h.2.1
      · intro g hg
        cases hg
        simp

/-- C5: `New` always returns. Whenever it returns an error it returns no Proxy and
leaves no gateway running: a gateway the start call produced has by then been closed
exactly once, as the last call. If the gateway start fails, it returns the start error
after that one call: nothing is bound and nothing is closed. If the bind fails on the
started gateway, it returns the bind error and the gateway is closed exactly once, as the
last call, and no service is closed. If start and bind both succeed it returns, with a
nil error and nothing closed, the Proxy that holds exactly the two handles obtained and
the backend address passed in; and it returns a Proxy in no other case. -/
theorem new_error_handling (env : Env) (ctx : Option Context) (key : PrivateKey)
    (backend : String) :
    ∃ out t, New env ctx key backend = .returned out t ∧
      (out.2 ≠ none → out.1 = none) ∧
      (out.2 ≠ none → ∀ g, env.torStart none startConf = .ok g →
        t.count (.gatewayClose g) = 1 ∧ t.getLast? = some (.gatewayClose g)) ∧
      (out.2 = none → ∃ p, out.1 = some p) ∧
      (∀ e, env.torStart none startConf = .error e →
        out = (none, some e) ∧ t = [.torStart none startConf]) ∧
      (∀ g e, env.torStart none startConf = .ok g →
        env.torListen g ctx (listenConf key) = .error e →
          out = (none, some e) ∧ t.count (.gatewayClose g) = 1 ∧
          t.getLast? = some (.gatewayClose g) ∧ (∀ s, Event.serviceClose s ∉ t)) ∧
      (∀ g s, env.torStart none startConf = .ok g →
        env.torListen g ctx (listenConf key) = .ok s →
          out = (some { gateway := some g, service := some s, backend := backend }, none) ∧
          t = [.torStart none startConf, .torListen g ctx (listenConf key)]) ∧
      (∀ p, out.1 = some p →
        out.2 = none ∧
        (∃ g s, env.torStart none startConf = .ok g ∧
          env.torListen g ctx (listenConf key) = .ok s ∧
          p = { gateway := some g, service := some s, backend := backend }) ∧
        (∀ g, Event.gatewayClose g ∉ t) ∧ (∀ s, Event.serviceClose s ∉ t)) := by
  cases hstart : env.torStart none startConf with
  | error err =>
    refine ⟨_, _, new_of_start_error env ctx key backend err hstart, ?_, ?_, ?_, ?_, ?_, ?_, ?_⟩
    · intro _; rfl
    · intro _ g hg
      cases hg
    · intro h
      cases h
    · intro e he
      cases he
      exact ⟨rfl, rfl⟩
    · intro g e hg
      cases hg
    · intro g s hg
      cases hg
    · intro p hp
      cases hp
  | ok gateway =>
    cases hlisten : env.torListen gateway ctx (listenConf key) with
    | error err =>
      refine ⟨_, _, new_of_listen_error env ctx key backend gateway err hstart hlisten,
        ?_, ?_, ?_, ?_, ?_, ?_, ?_⟩
      · intro _; rfl
      · intro _ g hg
        cases hg
        exact ⟨by simp [List.count_cons], by simp⟩
      · intro h
        cases h
      · intro e he
        cases he
      · intro g e hg hl
        cases hg
        rw [hlisten] at hl
        cases hl
        refine ⟨rfl, ?_, ?_, ?_⟩
        · simp [List.count_cons]
        · simp
        · intro s hs
          simp at hs
      · intro g s hg hl
        cases hg
        rw [hlisten] at hl
        cases hl
      · intro p hp
        cases hp
    | ok service =>
      refine ⟨_, _, new_of_listen_ok env ctx key backend gateway service hstart hlisten,
        ?_, ?_, ?_, ?_, ?_, ?_, ?_⟩
      · intro h
        exact absurd rfl h
      · intro h
        exact absurd rfl h
      · intro _
        exact ⟨_, rfl⟩
      · intro e he
        cases he
      · intro g e hg hl
        cases hg
        rw [hlisten] at hl
        cases hl
      · intro g s hg hl
        cases hg
        rw [hlisten] at hl
        cases hl
        exact ⟨rfl, rfl⟩
      · intro p hp
        cases hp
        refine ⟨rfl, ⟨gateway, service, rfl, hlisten, rfl⟩, ?_, ?_⟩
        · intro g hg
          simp at hg
        · intro s hs
          simp at hs

/-! ## Teardown -/

theorem afterCalls_close (g : Tor) (s : OnionService) (be : String) :
    Proxy.afterCalls { gateway := some g, service := some s, backend := be }
        [.serviceClose s, .gatewayClose g]
      = { gateway := some g, service := some { ID := "" }, backend := be } := by
  simp [Proxy.afterCalls, Proxy.afterCall]

theorem afterCalls_serve (g : Tor) (s : OnionService) (be : String) :
    Proxy.afterCalls { gateway := some g, service := some s, backend := be }
        [.httpServe s, .serviceClose s, .gatewayClose g]
      = { gateway := some g, service := some { ID := "" }, backend := be } := by
  simp [Proxy.afterCalls, Proxy.afterCall]

theorem closeTwice_of_handles (g : Tor) (s : OnionService) (be : String) :
    closeTwice (some { gateway := some g, service := some s, backend := be })
      = .returned none
          [.serviceClose s, .gatewayClose g, .serviceClose { ID := "" }, .gatewayClose g] := by
  simp only [closeTwice, Proxy.Close, Option.map, afterCalls_close, Run.after]
  rfl

/-- C6: on a Proxy holding gateway `g` and service `s`, `Close` closes the service and
then the gateway, each once; and `Serve`, whatever error `http.Serve` ends with, makes
after the accept loop exactly these two calls in this order, each once, before it returns
that error. -/
theorem teardown_order (env : Env) (p : Proxy) (g : Tor) (s : OnionService)
    (hg : p.gateway = some g) (hs : p.service = some s) :
    Proxy.Close (some p) = .returned none [.serviceClose s, .gatewayClose g] ∧
      Proxy.Serve env (some p)
        = .returned (some (env.httpServe s))
            [.httpServe s, .serviceClose s, .gatewayClose g] := by
  constructor
  · simp [Proxy.Close, hg, hs]
  · simp [Proxy.Serve, hg, hs, runDeferred, Deferred.run]

/-- Witness of C6: the sample proxy in the `/ping` world. -/
theorem teardown_order_witness :
    Proxy.Close (some sampleProxy)
        = .returned none [.serviceClose { ID := "abc" }, .gatewayClose { pid := 1 }] ∧
      Proxy.Serve pingEnv (some sampleProxy)
        = .returned (some (pingEnv.httpServe { ID := "abc" }))
            [.httpServe { ID := "abc" }, .serviceClose { ID := "abc" },
             .gatewayClose { pid := 1 }] :=
  teardown_order pingEnv sampleProxy { pid := 1 } { ID := "abc" } rfl rfl

/-- C7: for every Proxy `New` returns and every error `http.Serve` ends with, `Serve`
returns, what it returns is that (non-nil) error, and the gateway of the Proxy has been
closed among the calls made by then. -/
theorem serve_returns_error (env : Env) (ctx : Option Context) (key : PrivateKey)
    (backend : String) (p : Proxy) (err : Option GoError) (t0 : List Event)
    (hnew : New env ctx key backend = .returned (some p, err) t0) :
    ∃ g s t, p.gateway = some g ∧ p.service = some s ∧
      Proxy.Serve env (some p) = .returned (some (env.httpServe s)) t ∧
      Event.gatewayClose g ∈ t ∧ t.getLast? = some (.gatewayClose g) := by
  obtain ⟨g, s, _, _, hp, _, _⟩ := new_returns_proxy env ctx key backend p err t0 hnew
  subst hp
  refine ⟨g, s, [.httpServe s, .serviceClose s, .gatewayClose g], rfl, rfl, ?_, ?_, ?_⟩
  · simp [Proxy.Serve, runDeferred, Deferred.run]
  · simp
  · simp

/-- Witness of C7: the proxy `New` returns in the `/ping` world. -/
theorem serve_returns_error_witness :
    ∃ g s t, sampleProxy.gateway = some g ∧ sampleProxy.service = some s ∧
      Proxy.Serve pingEnv (some sampleProxy) = .returned (some (pingEnv.httpServe s)) t ∧
      Event.gatewayClose g ∈ t ∧ t.getLast? = some (.gatewayClose g) :=
  serve_returns_error pingEnv none [] "localhost:8086" sampleProxy none
    [.torStart none startConf, .torListen { pid := 1 } none (listenConf [])] rfl

/-- C8, as stated, fails: the failed `New` of the expired deadline returns the nil Proxy
with the bind error, and `Close` on the nil Proxy panics instead of returning nil; so it
does on a Proxy with no handles and on one lacking only its gateway. -/
theorem close_nil_proxy_counterexample :
    (New deadlineEnv expiredContext [] "localhost:8086").value?
        = some (none, some { text := "context deadline exceeded" }) ∧
      (Proxy.Close none).value? ≠ some none ∧
      (Proxy.Close (some { gateway := none, service := none, backend := "" })).value?
        ≠ some none ∧
      (Proxy.Close
          (some { gateway := none, service := some { ID := "abc" }, backend := "" })).value?
        ≠ some none := by
  decide

/-- C8, amended: `Close` returns, and then returns a nil error, exactly on a Proxy that
holds both handles (what a successful `New` returns); it panics on the nil Proxy and on a
missing handle. On a Proxy holding both handles two calls in a row both return nil,
having closed service, gateway, service (its identifier cleared by the first close),
gateway. -/
theorem close_returns_nil_iff (p : Option Proxy) :
    ((Proxy.Close p).value? = some none
        ↔ ∃ q g s, p = some q ∧ q.gateway = some g ∧ q.service = some s) ∧
      ((Proxy.Close p).value? = none
        ↔ ¬ ∃ q g s, p = some q ∧ q.gateway = some g ∧ q.service = some s) ∧
      (∀ q g s, p = some q → q.gateway = some g → q.service = some s →
        closeTwice p = .returned none
          [.serviceClose s, .gatewayClose g, .serviceClose { ID := "" }, .gatewayClose g]) := by
  cases p with
  | none => simp [Proxy.Close, Run.value?]
  | some q =>
    obtain ⟨gw, sv, be⟩ := q
    refine ⟨?_, ?_, ?_⟩
    · cases gw <;> cases sv <;> simp [Proxy.Close, Run.value?]
    · cases gw <;> cases sv <;> simp [Proxy.Close, Run.value?]
    · intro q g s hq hg hs
      cases hq
      simp only at hg hs
      subst hg hs
      exact closeTwice_of_handles g s be

/-! ## The published address -/

/-- C10, as stated, fails: for the proxy whose service has identifier "abc" the accessor
returns "http://abc.onion:8086", not "abc.onion". -/
theorem url_counterexample :
    Proxy.URL (some sampleProxy) = some "http://abc.onion:8086" ∧
      Proxy.URL (some sampleProxy) ≠ some ("abc" ++ ".onion") := by
  decide

theorem serveHTTP_afterCalls (env : Env) (q : Proxy) (w : ResponseWriter) (r : Request) :
    q.afterCalls (Proxy.ServeHTTP env (some q) w r).trace = q := by
  cases hrt : env.roundTrip (outbound q.backend r) with
  | error err =>
    cases hw : httpError w err.Error 500 with
    | none => simp [Proxy.ServeHTTP, hrt, hw, Run.trace, Proxy.afterCalls, Proxy.afterCall]
    | some w1 => simp [Proxy.ServeHTTP, hrt, hw, Run.trace, Proxy.afterCalls, Proxy.afterCall]
  | ok res =>
    cases hw : ResponseWriter.WriteHeader
        { w with header := copyHeader w.header res.Header } res.StatusCode with
    | none => simp [Proxy.ServeHTTP, hrt, hw, Run.trace, Proxy.afterCalls, Proxy.afterCall]
    | some w2 => simp [Proxy.ServeHTTP, hrt, hw, Run.trace, Proxy.afterCalls, Proxy.afterCall]

theorem afterRequests_eq (env : Env) (p : Proxy) (reqs : List (ResponseWriter × Request)) :
    p.afterRequests env reqs = p := by
  simp only [Proxy.afterRequests, serveHTTP_afterCalls]
  induction reqs with
  | nil => rfl
  | cons wr rest ih => simp

/-- C10, amended: for every Proxy whose onion service has identifier `id`, the accessor
`URL` returns "http://", then `id`, then ".onion:8086", which is the address the caller
logs, "http://" `id` ".onion", with the port ":8086" behind it. That identifier does not
change between bootstrap and teardown: for a Proxy that `New` returned it is the
identifier of the service the listener bind answered, the calls of `New` leave it alone,
and so does every request served, so `URL` returns the same string throughout; only the
teardown, by `Close` or at the end of `Serve`, clears it. -/
theorem url_of_service (p : Proxy) (s : OnionService) (hs : p.service = some s) :
    Proxy.URL (some p) = some ("http://" ++ s.ID ++ ".onion:8086") ∧
      Proxy.URL (some p) = some (("http://" ++ s.ID ++ ".onion") ++ ":8086") ∧
      (∀ (env : Env) (ctx : Option Context) (key : PrivateKey) (backend : String)
        (err : Option GoError) (t0 : List Event),
        New env ctx key backend = .returned (some p, err) t0 →
          (∃ g, env.torStart none startConf = .ok g ∧
            env.torListen g ctx (listenConf key) = .ok s) ∧
          p.afterCalls t0 = p) ∧
      (∀ (env : Env) (reqs : List (ResponseWriter × Request)),
        (p.afterRequests env reqs).service = some s ∧
        Proxy.URL (some (p.afterRequests env reqs)) = Proxy.URL (some p)) ∧
      (∀ g, p.gateway = some g →
        Proxy.URL (some (p.afterCalls (Proxy.Close (some p)).trace))
          = some "http://.onion:8086" ∧
        ∀ env : Env, Proxy.URL (some (p.afterCalls (Proxy.Serve env (some p)).trace))
          = some "http://.onion:8086") := by
  refine ⟨by simp [Proxy.URL, hs], ?_, ?_, ?_, ?_⟩
  · simp [Proxy.URL, hs, String.append_assoc]
  · intro env ctx key backend err t0 hnew
    obtain ⟨g, s1, hstart, hlisten, hp, _, ht⟩ :=
      new_returns_proxy env ctx key backend p err t0 hnew
    subst hp
    cases hs
    refine ⟨⟨g, hstart, hlisten⟩, ?_⟩
    rw [ht]
    simp [Proxy.afterCalls, Proxy.afterCall]
  · intro env reqs
    rw [afterRequests_eq]
    exact ⟨hs, rfl⟩
  · intro g hg
    obtain ⟨gw, sv, be⟩ := p
    simp only at hs hg
    subst hs hg
    constructor
    · simp [Proxy.Close, Run.trace, Proxy.afterCalls, Proxy.afterCall, Proxy.URL]
    · intro env
      simp [Proxy.Serve, runDeferred, Deferred.run, Run.trace, Proxy.afterCalls,
        Proxy.afterCall, Proxy.URL]

/-- Witness of C10 amended: the sample proxy, whose service has identifier "abc". -/
theorem url_of_service_witness :
    Proxy.URL (some sampleProxy) = some ("http://" ++ "abc" ++ ".onion:8086") ∧
      Proxy.URL (some sampleProxy) = some (("http://" ++ "abc" ++ ".onion") ++ ":8086") ∧
      (∀ (env : Env) (ctx : Option Context) (key : PrivateKey) (backend : String)
        (err : Option GoError) (t0 : List Event),
        New env ctx key backend = .returned (some sampleProxy, err) t0 →
          (∃ g, env.torStart none startConf = .ok g ∧
            env.torListen g ctx (listenConf key) = .ok { ID := "abc" }) ∧
          sampleProxy.afterCalls t0 = sampleProxy) ∧
      (∀ (env : Env) (reqs : List (ResponseWriter × Request)),
        (sampleProxy.afterRequests env reqs).service = some { ID := "abc" } ∧
        Proxy.URL (some (sampleProxy.afterRequests env reqs))
          = Proxy.URL (some sampleProxy)) ∧
      (∀ g, sampleProxy.gateway = some g →
        Proxy.URL (some (sampleProxy.afterCalls (Proxy.Close (some sampleProxy)).trace))
          = some "http://.onion:8086" ∧
        ∀ env : Env,
          Proxy.URL (some (sampleProxy.afterCalls (Proxy.Serve env (some sampleProxy)).trace))
            = some "http://.onion:8086") :=
  url_of_service sampleProxy { ID := "abc" } rfl

/-! ## The onion key -/

theorem fromHexChar_eq_none_iff (c : Nat) : fromHexChar c = none ↔ isHexDigit c = false := by
  unfold fromHexChar isHexDigit
  split_ifs with h1 h2 h3 <;> simp <;> omega

theorem decode_error_none_iff (bs : List Nat) : (Decode bs).2 = none ↔ validHex bs := by
  induction bs using Decode.induct with
  | case1 => simp [Decode, validHex]
  | case2 c hc =>
    have hdig := (fromHexChar_eq_none_iff c).mp hc
    simp [Decode, hc, validHex]
  | case3 c v hc =>
    simp [Decode, hc, validHex]
  | case4 p q rest hp =>
    have hdig := (fromHexChar_eq_none_iff p).mp hp
    simp [Decode, hp, validHex, hdig]
  | case5 p q rest a ha hq =>
    have hdig := (fromHexChar_eq_none_iff q).mp hq
    simp [Decode, ha, hq, validHex, hdig]
  | case6 p q rest a ha b hb ih =>
    have hp : isHexDigit p = true := by
      cases h : isHexDigit p with
      | true => rfl
      | false => rw [(fromHexChar_eq_none_iff p).mpr h] at ha; cases ha
    have hq : isHexDigit q = true := by
      cases h : isHexDigit q with
      | true => rfl
      | false => rw [(fromHexChar_eq_none_iff q).mpr h] at hb; cases hb
    simp only [Decode, ha, hb]
    rw [ih]
    simp only [validHex, List.length_cons, List.mem_cons]
    constructor
    · rintro ⟨hlen, hall⟩
      refine ⟨by omega, ?_⟩
      intro c hc
      rcases hc with rfl | rfl | hc
      · exact hp
      · exact hq
      · exact hall c hc
    · rintro ⟨hlen, hall⟩
      exact ⟨by omega, fun c hc => hall c (Or.inr (Or.inr hc))⟩

theorem decode_length (bs : List Nat) (h : (Decode bs).2 = none) :
    2 * (Decode bs).1.length = bs.length := by
  induction bs using Decode.induct with
  | case1 => simp [Decode]
  | case2 c hc => simp [Decode, hc] at h
  | case3 c v hc => simp [Decode, hc] at h
  | case4 p q rest hp => simp [Decode, hp] at h
  | case5 p q rest a ha hq => simp [Decode, ha, hq] at h
  | case6 p q rest a ha b hb ih =>
    simp only [Decode, ha, hb] at h ⊢
    have := ih h
    simp only [List.length_cons]
    omega

theorem run_after_nil {α : Type} (x : Run α) : x.after [] = x := by
  cases x <;> simp [Run.after]

theorem runProxy_trace (ps : Process) (env : Env) (key : PrivateKey) :
    ∃ ctx : Option Context,
      (runProxy ps env key).trace = [.torStart none startConf] ∨
      (∃ g, (runProxy ps env key).trace
        = [.torStart none startConf, .torListen g ctx (listenConf key), .gatewayClose g]) ∨
      (∃ g s, (runProxy ps env key).trace
        = [.torStart none startConf, .torListen g ctx (listenConf key), .httpServe s,
           .serviceClose s, .gatewayClose g, .serviceClose { ID := "" },
           .gatewayClose g]) := by
  refine ⟨some { deadline := some (ps.now + ps.timeout) }, ?_⟩
  cases hstart : env.torStart none startConf with
  | error e =>
    left
    simp only [runProxy, new_of_start_error env _ key ps.influxdb e hstart, Run.trace]
  | ok g =>
    cases hlisten : env.torListen g (some { deadline := some (ps.now + ps.timeout) })
        (listenConf key) with
    | error e =>
      right; left
      refine ⟨g, ?_⟩
      simp only [runProxy, new_of_listen_error env _ key ps.influxdb g e hstart hlisten,
        Run.trace]
    | ok sv =>
      right; right
      refine ⟨g, sv, ?_⟩
      have hafter := afterCalls_serve g sv ps.influxdb
      simp [runProxy, new_of_listen_ok env _ key ps.influxdb g sv hstart hlisten,
        Proxy.Serve, runDeferred, Deferred.run, hafter, Proxy.Close, Run.trace]

theorem generateKey_not_mem_runProxy (ps : Process) (env : Env) (key : PrivateKey) :
    Event.generateKey ∉ (runProxy ps env key).trace := by
  obtain ⟨ctx, h | ⟨g, h⟩ | ⟨g, s, h⟩⟩ := runProxy_trace ps env key <;> rw [h] <;> simp

theorem retrieveKey_of_nonempty (ps : Process) (hne : ps.onionkey ≠ "") :
    retrieveKey ps
      = match DecodeString ps.onionkey with
        | (_, some _) => (.error (-1), [])
        | (blob, none) =>
          if blob.length ≠ PrivateKeySize then (.error (-1), []) else (.ok blob, []) := by
  simp only [retrieveKey, hne, if_false]

/-- The sample process starts with the 64 bytes its 128 hex digits decode to. -/
theorem retrieveKey_sample :
    (retrieveKey sampleProcess).1.toOption = some (List.replicate 64 170) ∧
      (retrieveKey sampleProcess).2 = [] := by
  decide

/-- C9: for every value `hexstr` of the environment variable. If it is non-empty and is
not valid hexadecimal, or decodes to a number of bytes other than the ed25519 private-key
size, `main` exits with status -1 having made no call at all: no key is generated and no
proxy is created. If it is non-empty, valid, and decodes to exactly that size (which is
the case of 128 hex digits), the key `main` goes on with, and hands to `New`, is exactly
the decoded bytes. A key is generated exactly when the variable is empty. -/
theorem main_key_validation (ps : Process) (env : Env) :
    (ps.onionkey ≠ "" →
      (¬ validHex (goBytes ps.onionkey)
        ∨ (DecodeString ps.onionkey).1.length ≠ PrivateKeySize) →
      retrieveKey ps = (.error (-1), []) ∧ main ps env = .returned (-1) []) ∧
    (ps.onionkey ≠ "" → validHex (goBytes ps.onionkey) →
      (DecodeString ps.onionkey).1.length = PrivateKeySize →
      retrieveKey ps = (.ok (DecodeString ps.onionkey).1, []) ∧
      main ps env = runProxy ps env (DecodeString ps.onionkey).1 ∧
      (∀ g c conf, Event.torListen g c conf ∈ (main ps env).trace →
        conf.Key = (DecodeString ps.onionkey).1) ∧
      (goBytes ps.onionkey).length = 2 * PrivateKeySize) ∧
    (Event.generateKey ∈ (retrieveKey ps).2 ↔ ps.onionkey = "") ∧
    (Event.generateKey ∈ (main ps env).trace ↔ ps.onionkey = "") := by
  refine ⟨?_, ?_, ?_, ?_⟩
  · intro hne hbad
    have hkey : retrieveKey ps = (.error (-1), []) := by
      rw [retrieveKey_of_nonempty ps hne]
      rcases hd : DecodeString ps.onionkey with ⟨blob, err⟩
      cases err with
      | some e => rfl
      | none =>
        have hvalid : validHex (goBytes ps.onionkey) := by
          rw [← decode_error_none_iff]
          have : (Decode (goBytes ps.onionkey)) = (blob, none) := hd
          rw [this]
        rcases hbad with hbad | hbad
        · exact absurd hvalid hbad
        · rw [hd] at hbad
          simp only [] at hbad ⊢
          rw [if_pos hbad]
    refine ⟨hkey, ?_⟩
    simp only [main, hkey]
  · intro hne hvalid hlen
    have herr : (DecodeString ps.onionkey).2 = none := (decode_error_none_iff _).mpr hvalid
    have hkey : retrieveKey ps = (.ok (DecodeString ps.onionkey).1, []) := by
      rw [retrieveKey_of_nonempty ps hne]
      rcases hd : DecodeString ps.onionkey with ⟨blob, err⟩
      rw [hd] at herr hlen
      simp only [] at herr hlen
      subst herr
      simp only []
      rw [if_neg (fun h => h hlen)]
    have hmain : main ps env = runProxy ps env (DecodeString ps.onionkey).1 := by
      simp only [main, hkey, run_after_nil]
    refine ⟨hkey, hmain, ?_, ?_⟩
    · intro g c conf hmem
      rw [hmain] at hmem
      obtain ⟨ctx, h | ⟨g1, h⟩ | ⟨g1, s1, h⟩⟩ :=
        runProxy_trace ps env (DecodeString ps.onionkey).1
      · rw [h] at hmem
        simp at hmem
      · rw [h] at hmem
        simp at hmem
        rw [hmem.2.2]
        rfl
      · rw [h] at hmem
        simp at hmem
        rw [hmem.2.2]
        rfl
    · have := decode_length (goBytes ps.onionkey) herr
      have hlen2 : (Decode (goBytes ps.onionkey)).1.length = PrivateKeySize := hlen
      omega
  · by_cases hne : ps.onionkey = ""
    · simp only [retrieveKey, hne, if_true, iff_true]
      cases ps.generateKey <;> simp
    · simp only [hne, iff_false]
      rw [retrieveKey_of_nonempty ps hne]
      rcases DecodeString ps.onionkey with ⟨blob, err⟩
      cases err with
      | some e => simp
      | none =>
        simp only []
        split_ifs <;> simp
  · by_cases hne : ps.onionkey = ""
    · simp only [main, retrieveKey, hne, if_true, iff_true]
      cases ps.generateKey with
      | error e => simp [Run.trace]
      | ok k =>
        simp only []
        cases runProxy ps env k <;> simp [Run.after, Run.trace]
    · simp only [hne, iff_false]
      simp only [main]
      rw [retrieveKey_of_nonempty ps hne]
      rcases DecodeString ps.onionkey with ⟨blob, err⟩
      cases err with
      | some e => simp [Run.trace]
      | none =>
        simp only []
        split_ifs
        · simp [Run.trace]
        · simp only [run_after_nil]
          exact generateKey_not_mem_runProxy ps env blob

end Torflux
